import Mathlib

/-!
Verification of the SSE stream decoder and the conversation-history trimmer
of `streamlit_chat.py`.

Python strings are modelled as lists of characters (`Str`); the decoder works
on the sequence of response lines with trailing CR/LF already stripped, the
end of the list standing for the connection closing (`readline` returning an
empty bytes object).  JSON values produced by `json.loads` are modelled by the
inductive type `Json`, and the exceptions that can escape the per-event
extraction code (`TypeError`, `KeyError`, `IndexError`) by `PyErr`.
-/

/-- Python strings, modelled as lists of characters. -/
abbrev Str := List Char

/-- The characters of a Lean string literal, used to write concrete inputs. -/
def chars (s : String) : Str := s.toList

/-- JSON values as produced by Python's `json.loads`.  Numbers are modelled by
an integer that is zero exactly when the parsed number is numerically zero
(only truthiness and container/scalar shape of numbers matter to the code
under verification; non-zero floats and the non-standard `NaN`/`Infinity`
literals are represented by non-zero integers). -/
inductive Json where
  | null : Json
  | bool (b : Bool) : Json
  | num (n : Int) : Json
  | str (s : Str) : Json
  | arr (xs : List Json) : Json
  | obj (kvs : List (Str × Json)) : Json

instance : Inhabited Json := ⟨Json.null⟩

/-- JSON whitespace, skipped between tokens by `json.loads`. -/
def skipWs : Str → Str
  | c :: cs => if c = ' ' ∨ c = '\t' ∨ c = '\n' ∨ c = '\r' then skipWs cs else c :: cs
  | [] => []

/-- Whether a character is a hexadecimal digit. -/
def isHex (c : Char) : Bool :=
  c.isDigit || ('a' ≤ c && c ≤ 'f') || ('A' ≤ c && c ≤ 'F')

/-- Numeric value of a hexadecimal digit. -/
def hexVal (c : Char) : Nat :=
  if c.isDigit then c.toNat - 48
  else if 'a' ≤ c then c.toNat - 87
  else c.toNat - 55

/-- Parse the body of a JSON string literal (the opening quote already
consumed), returning the decoded characters and the rest of the input after
the closing quote.  Unescaped control characters and invalid escapes are
rejected, as in Python's strict mode. -/
def parseStringBody : Str → Option (Str × Str)
  | [] => none
  | c :: rest =>
    if c = '"' then some ([], rest)
    else if c = '\\' then
      match rest with
      | [] => none
      | e :: rest2 =>
        if e = 'u' then
          match rest2 with
          | h1 :: h2 :: h3 :: h4 :: rest3 =>
            if isHex h1 ∧ isHex h2 ∧ isHex h3 ∧ isHex h4 then
              match parseStringBody rest3 with
              | some (s, r) =>
                some (Char.ofNat (4096 * hexVal h1 + 256 * hexVal h2 +
                  16 * hexVal h3 + hexVal h4) :: s, r)
              | none => none
            else none
          | _ => none
        else
          match
            (if e = '"' then some '"'
             else if e = '\\' then some '\\'
             else if e = '/' then some '/'
             else if e = 'b' then some '\x08'
             else if e = 'f' then some '\x0c'
             else if e = 'n' then some '\n'
             else if e = 'r' then some '\r'
             else if e = 't' then some '\t'
             else none) with
          | some d =>
            match parseStringBody rest2 with
            | some (s, r) => some (d :: s, r)
            | none => none
          | none => none
    else if c.toNat < 32 then none
    else
      match parseStringBody rest with
      | some (s, r) => some (c :: s, r)
      | none => none

/-- Numeric value of a run of decimal digits. -/
def digitsToNat (ds : Str) : Nat :=
  ds.foldl (fun acc c => acc * 10 + (c.toNat - 48)) 0

/-- Parse an optional fraction part `.ddd`; returns its digits (possibly none)
and the rest of the input. -/
def parseFrac (cs : Str) : Option (Str × Str) :=
  match cs with
  | '.' :: r =>
    let ds := r.takeWhile Char.isDigit
    if ds = [] then none else some (ds, r.drop ds.length)
  | _ => some ([], cs)

/-- Parse an optional exponent part `e[+-]ddd`; returns the rest of the
input. -/
def parseExp (cs : Str) : Option Str :=
  match cs with
  | c :: r =>
    if c = 'e' ∨ c = 'E' then
      let r2 := match r with
        | s :: r3 => if s = '+' ∨ s = '-' then r3 else s :: r3
        | [] => []
      let ds := r2.takeWhile Char.isDigit
      if ds = [] then none else some (r2.drop ds.length)
    else some (c :: r)
  | [] => some []

/-- Parse a JSON number (also the non-standard `Infinity` accepted by Python
after a minus sign).  The stored integer concatenates the integral and
fractional digits, so it is zero exactly when the number is zero. -/
def parseNumber (cs : Str) : Option (Json × Str) :=
  let signed := match cs with
    | '-' :: r => (true, r)
    | _ => (false, cs)
  match signed with
  | (neg, cs1) =>
    if neg ∧ (chars "Infinity").isPrefixOf cs1 then
      some (Json.num (-1), cs1.drop 8)
    else
      match cs1 with
      | [] => none
      | c :: _ =>
        if c.isDigit then
          let intDigits := if c = '0' then ['0'] else cs1.takeWhile Char.isDigit
          let rest1 := cs1.drop intDigits.length
          match parseFrac rest1 with
          | none => none
          | some (fracDigits, rest2) =>
            match parseExp rest2 with
            | none => none
            | some rest3 =>
              let m : Int := Int.ofNat (digitsToNat (intDigits ++ fracDigits))
              some (Json.num (if neg then -m else m), rest3)
        else none

/-- The state of the recursive-descent parser for `json.loads`: a plain value,
the elements of an array after `[`, or the members of an object after `\x7b`. -/
inductive ParseMode where
  | val : ParseMode
  | elems (acc : List Json) : ParseMode
  | members (acc : List (Str × Json)) : ParseMode

/-- Insert a key into an object under construction the way a Python `dict`
does: a repeated key overwrites the value in place, a new key is appended. -/
def insertKey : List (Str × Json) → Str → Json → List (Str × Json)
  | [], k, v => [(k, v)]
  | (k0, v0) :: rest, k, v =>
    if k0 = k then (k0, v) :: rest else (k0, v0) :: insertKey rest k v

/-- Recursive-descent JSON parser (fuel-indexed so it is structurally
recursive); models the grammar accepted by Python's `json.loads`, including
the non-standard `NaN` and `Infinity` literals (represented as non-zero
numbers). -/
def parseF : Nat → ParseMode → Str → Option (Json × Str)
  | 0, _, _ => none
  | fuel + 1, ParseMode.val, cs =>
    match skipWs cs with
    | [] => none
    | c :: rest =>
      if c = '\x7b' then
        match skipWs rest with
        | '\x7d' :: r2 => some (Json.obj [], r2)
        | r2 => parseF fuel (ParseMode.members []) r2
      else if c = '[' then
        match skipWs rest with
        | ']' :: r2 => some (Json.arr [], r2)
        | r2 => parseF fuel (ParseMode.elems []) r2
      else if c = '"' then
        match parseStringBody rest with
        | some (s, r) => some (Json.str s, r)
        | none => none
      else if c = 't' then
        if (chars "rue").isPrefixOf rest then some (Json.bool true, rest.drop 3) else none
      else if c = 'f' then
        if (chars "alse").isPrefixOf rest then some (Json.bool false, rest.drop 4) else none
      else if c = 'n' then
        if (chars "ull").isPrefixOf rest then some (Json.null, rest.drop 3) else none
      else if c = 'N' then
        if (chars "aN").isPrefixOf rest then some (Json.num 1, rest.drop 2) else none
      else if c = 'I' then
        if (chars "nfinity").isPrefixOf rest then some (Json.num 1, rest.drop 7) else none
      else parseNumber (c :: rest)
  | fuel + 1, ParseMode.elems acc, cs =>
    match parseF fuel ParseMode.val cs with
    | none => none
    | some (v, rest) =>
      match skipWs rest with
      | ',' :: r2 => parseF fuel (ParseMode.elems (acc ++ [v])) r2
      | ']' :: r2 => some (Json.arr (acc ++ [v]), r2)
      | _ => none
  | fuel + 1, ParseMode.members acc, cs =>
    match skipWs cs with
    | '"' :: rest =>
      match parseStringBody rest with
      | none => none
      | some (key, rest2) =>
        match skipWs rest2 with
        | ':' :: rest3 =>
          match parseF fuel ParseMode.val rest3 with
          | none => none
          | some (v, rest4) =>
            match skipWs rest4 with
            | ',' :: rest5 => parseF fuel (ParseMode.members (insertKey acc key v)) rest5
            | '\x7d' :: rest5 => some (Json.obj (insertKey acc key v), rest5)
            | _ => none
        | _ => none
    | _ => none

/-- Model of Python's `json.loads`: parse a complete JSON document, rejecting
trailing garbage ("Extra data"). -/
def json_loads (s : Str) : Option Json :=
  match parseF (4 * s.length + 16) ParseMode.val s with
  | none => none
  | some (v, rest) => if skipWs rest = [] then some v else none

example : json_loads (chars "42") = some (Json.num 42) := by rfl

example : json_loads (chars "\x7b\"choices\":[\x7b\"delta\":\x7b\"content\":\"Hi\"\x7d\x7d]\x7d") =
    some (Json.obj [(chars "choices",
      Json.arr [Json.obj [(chars "delta",
        Json.obj [(chars "content", Json.str (chars "Hi"))])]])]) := by rfl

example : json_loads (chars "[DONE]") = none := by rfl

example : json_loads (chars "notjson") = none := by rfl

/-! ### Python semantics of the per-event extraction code

Lines 135-145 of `streamlit_chat.py` run

```
data = json.loads(payload)
if "choices" in data and len(data["choices"]) > 0:
    choice = data["choices"][0]
    if "delta" in choice and "content" in choice["delta"]:
        content = choice["delta"]["content"]
        if content:
            yield content
```

inside `try ... except json.JSONDecodeError: pass`.  Only the JSON decode
error is caught there; a `TypeError`/`KeyError`/`IndexError` raised by the
membership tests or subscripts escapes to the outer `except Exception`
handler, which yields a terminal error fragment.  The exceptions are modelled
by `PyErr` (their message text is abbreviated to the exception class name). -/

/-- The exceptions that the extraction code can raise past the inner
`except json.JSONDecodeError` handler. -/
inductive PyErr where
  | typeError : PyErr
  | keyError : PyErr
  | indexError : PyErr

/-- Abbreviated message text of a modelled Python exception. -/
def pyErrMsg : PyErr → Str
  | PyErr.typeError => chars "TypeError"
  | PyErr.keyError => chars "KeyError"
  | PyErr.indexError => chars "IndexError"

/-- Whether an object (Python `dict`) has the given key. -/
def objHasKey (kvs : List (Str × Json)) (key : Str) : Bool :=
  kvs.any (fun p => p.1 = key)

/-- Look up a key in an object (Python `dict` subscript). -/
def objGet (kvs : List (Str × Json)) (key : Str) : Option Json :=
  match kvs.find? (fun p => p.1 = key) with
  | some p => some p.2
  | none => none

/-- Whether `needle` occurs as a contiguous substring of `hay` (Python's
`in` on strings). -/
def strContains (needle hay : Str) : Bool :=
  (List.range (hay.length + 1)).any (fun i => needle.isPrefixOf (hay.drop i))

/-- Python's `key in j` for a string key: key membership for a `dict`,
element equality for a `list`, substring test for a `str`, and a `TypeError`
for the non-container values. -/
def pyIn (key : Str) : Json → Except PyErr Bool
  | Json.obj kvs => Except.ok (objHasKey kvs key)
  | Json.arr xs => Except.ok (xs.any (fun j => match j with
      | Json.str s => s = key
      | _ => false))
  | Json.str s => Except.ok (strContains key s)
  | _ => Except.error PyErr.typeError

/-- Python's `j[key]` for a string key: `dict` lookup (a missing key is a
`KeyError`), and a `TypeError` for every other value. -/
def pyIndexKey : Json → Str → Except PyErr Json
  | Json.obj kvs, key =>
    match objGet kvs key with
    | some v => Except.ok v
    | none => Except.error PyErr.keyError
  | _, _ => Except.error PyErr.typeError

/-- Python's `len(j)`: defined for `list`, `dict` and `str`, a `TypeError`
otherwise. -/
def pyLen : Json → Except PyErr Nat
  | Json.arr xs => Except.ok xs.length
  | Json.obj kvs => Except.ok kvs.length
  | Json.str s => Except.ok s.length
  | _ => Except.error PyErr.typeError

/-- Python's `j[0]`: first element of a `list`, one-character string of a
`str`, a `KeyError` for a `dict` (JSON object keys are strings, never the
integer `0`), a `TypeError` otherwise. -/
def pyIndexZero : Json → Except PyErr Json
  | Json.arr (x :: _) => Except.ok x
  | Json.arr [] => Except.error PyErr.indexError
  | Json.str (c :: _) => Except.ok (Json.str [c])
  | Json.str [] => Except.error PyErr.indexError
  | Json.obj _ => Except.error PyErr.keyError
  | _ => Except.error PyErr.typeError

/-- Python truthiness of a JSON value (`if content:`). -/
def pyTruthy : Json → Bool
  | Json.null => false
  | Json.bool b => b
  | Json.num n => n ≠ 0
  | Json.str s => s ≠ []
  | Json.arr [] => false
  | Json.arr (_ :: _) => true
  | Json.obj [] => false
  | Json.obj (_ :: _) => true

/-- The content-extraction step for one parsed event payload, following the
evaluation order of lines 138-143 of `streamlit_chat.py`: `Except.ok (some c)`
means `yield c`, `Except.ok none` means nothing is yielded, `Except.error`
means an exception escapes the inner handler. -/
def extract_content (data : Json) : Except PyErr (Option Json) :=
  match pyIn (chars "choices") data with
  | Except.error e => Except.error e
  | Except.ok false => Except.ok none
  | Except.ok true =>
    match pyIndexKey data (chars "choices") with
    | Except.error e => Except.error e
    | Except.ok cs =>
      match pyLen cs with
      | Except.error e => Except.error e
      | Except.ok n =>
        if n > 0 then
          match pyIndexZero cs with
          | Except.error e => Except.error e
          | Except.ok choice =>
            match pyIn (chars "delta") choice with
            | Except.error e => Except.error e
            | Except.ok false => Except.ok none
            | Except.ok true =>
              match pyIndexKey choice (chars "delta") with
              | Except.error e => Except.error e
              | Except.ok delta =>
                match pyIn (chars "content") delta with
                | Except.error e => Except.error e
                | Except.ok false => Except.ok none
                | Except.ok true =>
                  match pyIndexKey delta (chars "content") with
                  | Except.error e => Except.error e
                  | Except.ok content =>
                    Except.ok (if pyTruthy content then some content else none)
        else Except.ok none

/-- Processing of one assembled event payload (lines 134-145): a JSON parse
failure is swallowed by `except json.JSONDecodeError: pass`, any other
exception escapes. -/
def handlePayload (payload : Str) : Except PyErr (Option Json) :=
  match json_loads payload with
  | none => Except.ok none
  | some data => extract_content data

/-- Python's `str.lstrip()` whitespace test (ASCII whitespace). -/
def isPySpace (c : Char) : Bool :=
  c = ' ' || c = '\t' || c = '\n' || c = '\r' || c = '\x0b' || c = '\x0c'

/-- Python's `str.lstrip()` with no argument: remove all leading
whitespace. -/
def pyLstrip (s : Str) : Str := s.dropWhile isPySpace

/-- The value appended to the data-lines accumulator for a `data:` line
(line 154 of `streamlit_chat.py`: `line[5:].lstrip()`). -/
def dataLineValue (line : Str) : Str := pyLstrip (line.drop 5)

/-- Python's `"\n".join(data_lines)`. -/
def joinNL (data_lines : List Str) : Str := List.intercalate ['\n'] data_lines

/-- The SSE read loop of `stream_response` (lines 114-154), as a function of
the remaining response lines (trailing CR/LF already stripped; the end of the
list is the connection closing) and the current data-lines accumulator.  It
returns the list of values the generator yields from that point on.  Reaching
`[DONE]` returns without consuming further lines; an exception escaping the
inner handler is caught by `except Exception` and yields one final error
fragment. -/
def decodeLines : List Str → List Str → List Json
  | [], _ => []
  | line :: rest, data_lines =>
    if line = [] then
      match data_lines with
      | [] => decodeLines rest data_lines
      | _ =>
        let payload := joinNL data_lines
        if payload = chars "[DONE]" then []
        else
          match handlePayload payload with
          | Except.error e => [Json.str (chars "❌ Unexpected error: " ++ pyErrMsg e)]
          | Except.ok none => decodeLines rest []
          | Except.ok (some c) => c :: decodeLines rest []
    else if ([':'] : Str).isPrefixOf line then decodeLines rest data_lines
    else if (chars "data:").isPrefixOf line then
      decodeLines rest (data_lines ++ [dataLineValue line])
    else decodeLines rest data_lines

/-- The outcome of `urllib.request.urlopen` for one request: a 2xx response
whose body is the given sequence of lines, an `HTTPError` (non-2xx status,
carrying status code, reason and body), a `URLError` (connection-level
failure), or any other exception. -/
inductive HttpResult where
  | success (lines : List Str) : HttpResult
  | httpError (code : Nat) (reason : Str) (body : Str) : HttpResult
  | urlError (msg : Str) : HttpResult
  | otherError (msg : Str) : HttpResult

/-- The function `stream_response` given the transport outcome (lines 111-162):
on success the body is decoded as an SSE stream; each failure mode yields a
single error fragment per the `except` clauses. -/
def stream_response : HttpResult → List Json
  | HttpResult.success lines => decodeLines lines []
  | HttpResult.httpError code reason body =>
    [Json.str (chars "❌ Error: HTTP " ++ chars (Nat.repr code) ++ [' '] ++
      reason ++ ['\n'] ++ body)]
  | HttpResult.urlError msg => [Json.str (chars "❌ Connection error: " ++ msg)]
  | HttpResult.otherError msg => [Json.str (chars "❌ Unexpected error: " ++ msg)]

example :
    decodeLines [chars "data: \x7b\"choices\":[\x7b\"delta\":\x7b\"content\":\"Hi\"\x7d\x7d]\x7d",
      [], chars "data: \x7b\"choices\":[\x7b\"delta\":\x7b\"content\":\" there\"\x7d\x7d]\x7d",
      [], chars "data: [DONE]", []] [] =
    [Json.str (chars "Hi"), Json.str (chars " there")] := by rfl

example : decodeLines [chars "data: 42", [], chars "data: x", []] [] =
    [Json.str (chars "❌ Unexpected error: TypeError")] := by rfl

example : decodeLines [chars "data: \x7b\"choices\":[\x7b\"delta\":\x7b\"content\":\"Hi\"\x7d\x7d]\x7d"] [] = [] := by rfl

/-! ### The history trimmer `trim_conversation_history` (lines 40-77)

`max_messages` and `max_tokens` are Python `int`s, modelled as `Int`; note
that Python's `%` on a positive modulus agrees with Lean's `Int.emod`, and
that the slice `conversation_messages[-keep_count:]` must be modelled with
Python's semantics of negative (and `-0 = 0`) start indices. -/

/-- A chat message: a role and a content string. -/
structure Msg where
  role : Str
  content : Str
deriving DecidableEq

/-- Rough estimation of tokens, 4 characters per token (`estimate_tokens`,
line 35). -/
def estimate_tokens (text : Str) : Nat := text.length / 4

/-- Whether a message is kept unconditionally
(`msg["role"] in ["system", "developer"]`, line 53). -/
def isRetained (m : Msg) : Bool :=
  m.role = chars "system" ∨ m.role = chars "developer"

/-- The system/developer messages of a list, in order (lines 52-54). -/
def retainedPart (msgs : List Msg) : List Msg := msgs.filter isRetained

/-- The user/assistant conversation messages of a list, in order
(lines 52-56). -/
def conversationPart (msgs : List Msg) : List Msg :=
  msgs.filter (fun m => !(isRetained m))

/-- The keep count of lines 61-63: `max_messages`, decremented once if odd. -/
def keepCount (max_messages : Int) : Int :=
  if max_messages % 2 = 1 then max_messages - 1 else max_messages

/-- Python's `l[-k:]`: for `k = 0` the start index is `-0 = 0` and the whole
list is kept; for `k > 0` the start index is `max(len - k, 0)`; for `k < 0`
the start index is the positive `-k`. -/
def pySliceLastNeg (l : List Msg) (k : Int) : List Msg :=
  if k ≤ 0 then l.drop (-k).toNat else l.drop (l.length - k.toNat)

/-- Total estimated tokens of a message list (line 68). -/
def totalTokens (msgs : List Msg) : Nat :=
  (msgs.map (fun m => estimate_tokens m.content)).sum

/-- The token-budget loop of lines 71-75: while the total estimate exceeds
`max_tokens` and more than two conversation messages remain, drop the oldest
two conversation messages; finally return `system ++ conversation`. -/
def trimLoop (sys : List Msg) (conv : List Msg) (max_tokens : Int) : List Msg :=
  match conv with
  | a :: b :: c :: rest =>
    if (totalTokens (sys ++ (a :: b :: c :: rest)) : Int) > max_tokens then
      trimLoop sys (c :: rest) max_tokens
    else sys ++ conv
  | _ => sys ++ conv

/-- The function `trim_conversation_history(messages, max_messages, max_tokens)`
of lines 40-77. -/
def trim_conversation_history (messages : List Msg) (max_messages max_tokens : Int) :
    List Msg :=
  match messages with
  | [] => []
  | _ =>
    let system_messages := retainedPart messages
    let conversation_messages := conversationPart messages
    let conversation_messages :=
      if (conversation_messages.length : Int) > max_messages then
        pySliceLastNeg conversation_messages (keepCount max_messages)
      else conversation_messages
    trimLoop system_messages conversation_messages max_tokens

/-- Shorthand for building a message from string literals. -/
def mkMsg (r c : String) : Msg := ⟨chars r, chars c⟩

/-! ### Concrete payloads used in several statements -/

/-- The OpenAI-style chunk payload carrying the content `"Hi"`. -/
def payloadHi : Str := chars "\x7b\"choices\":[\x7b\"delta\":\x7b\"content\":\"Hi\"\x7d\x7d]\x7d"

/-- The OpenAI-style chunk payload carrying the content `" there"`. -/
def payloadThere : Str :=
  chars "\x7b\"choices\":[\x7b\"delta\":\x7b\"content\":\" there\"\x7d\x7d]\x7d"

/-! ### Unfolding lemmas for the decoder -/

/-- Exhausting the line source ends the generator at once; in particular any
still-accumulated data lines are discarded, not flushed. -/
theorem decode_eof (acc : List Str) : decodeLines [] acc = [] := rfl

/-- One event boundary (an empty line with a non-empty accumulator) processed
by the decoder. -/
theorem decode_boundary (rest : List Str) (d : Str) (ds : List Str) :
    decodeLines ([] :: rest) (d :: ds) =
      (if joinNL (d :: ds) = chars "[DONE]" then []
       else
        match handlePayload (joinNL (d :: ds)) with
        | Except.error e => [Json.str (chars "❌ Unexpected error: " ++ pyErrMsg e)]
        | Except.ok none => decodeLines rest []
        | Except.ok (some c) => c :: decodeLines rest []) := rfl

/-- A `[DONE]` payload at an event boundary: the decoder returns with no
further output, regardless of the remaining lines. -/
theorem decode_boundary_done (rest : List Str) (acc : List Str) (hne : acc ≠ [])
    (hp : joinNL acc = chars "[DONE]") : decodeLines ([] :: rest) acc = [] := by
  cases acc with
  | nil => exact absurd rfl hne
  | cons d ds => rw [decode_boundary, if_pos hp]

/-- An event boundary whose payload yields nothing: the decoder skips the
event and continues with an empty accumulator. -/
theorem decode_boundary_skip (rest : List Str) (acc : List Str) (hne : acc ≠ [])
    (hd : joinNL acc ≠ chars "[DONE]")
    (hh : handlePayload (joinNL acc) = Except.ok none) :
    decodeLines ([] :: rest) acc = decodeLines rest [] := by
  cases acc with
  | nil => exact absurd rfl hne
  | cons d ds => rw [decode_boundary, if_neg hd, hh]

/-- An event boundary whose payload yields a content value: the decoder emits
exactly that value and continues with an empty accumulator. -/
theorem decode_boundary_emit (rest : List Str) (acc : List Str) (c : Json) (hne : acc ≠ [])
    (hd : joinNL acc ≠ chars "[DONE]")
    (hh : handlePayload (joinNL acc) = Except.ok (some c)) :
    decodeLines ([] :: rest) acc = c :: decodeLines rest [] := by
  cases acc with
  | nil => exact absurd rfl hne
  | cons d ds => rw [decode_boundary, if_neg hd, hh]

/-- An event boundary whose payload raises past the inner handler: the
decoder yields one final error fragment and stops. -/
theorem decode_boundary_error (rest : List Str) (acc : List Str) (e : PyErr) (hne : acc ≠ [])
    (hd : joinNL acc ≠ chars "[DONE]")
    (hh : handlePayload (joinNL acc) = Except.error e) :
    decodeLines ([] :: rest) acc =
      [Json.str (chars "❌ Unexpected error: " ++ pyErrMsg e)] := by
  cases acc with
  | nil => exact absurd rfl hne
  | cons d ds => rw [decode_boundary, if_neg hd, hh]

/-- A payload that `json.loads` accepts is not the literal `[DONE]` (which it
rejects). -/
theorem ne_done_of_loads (payload : Str) (v : Json) (h : json_loads payload = some v) :
    payload ≠ chars "[DONE]" := by
  intro heq
  rw [heq] at h
  exact absurd h (by rw [show json_loads (chars "[DONE]") = none from rfl]; simp)

/-- An object has a key that `objGet` finds. -/
theorem objHasKey_of_objGet (kvs : List (Str × Json)) (key : Str) (v : Json)
    (h : objGet kvs key = some v) : objHasKey kvs key = true := by
  induction kvs with
  | nil => simp [objGet] at h
  | cons p rest ih =>
    by_cases hp : p.1 = key
    · simp [objHasKey, hp]
    · have h2 : objGet rest key = some v := by
        unfold objGet at h ⊢
        rwa [List.find?_cons_of_neg _ (by simp [hp])] at h
      simp only [objHasKey, List.any_cons, Bool.or_eq_true]
      exact Or.inr (ih h2)

/-- Content extraction on a payload of the OpenAI streaming shape: the
`content` string is returned whenever it is non-empty. -/
theorem extract_content_shape (kvs ckvs dkvs : List (Str × Json)) (restCh : List Json)
    (s : Str)
    (hc : objGet kvs (chars "choices") = some (Json.arr (Json.obj ckvs :: restCh)))
    (hd : objGet ckvs (chars "delta") = some (Json.obj dkvs))
    (hcont : objGet dkvs (chars "content") = some (Json.str s)) (hs : s ≠ []) :
    extract_content (Json.obj kvs) = Except.ok (some (Json.str s)) := by
  simp only [extract_content, pyIn, objHasKey_of_objGet _ _ _ hc, pyIndexKey, hc, pyLen,
    pyIndexZero, objHasKey_of_objGet _ _ _ hd, hd, objHasKey_of_objGet _ _ _ hcont, hcont,
    pyTruthy, Nat.succ_pos, if_pos, List.length_cons, Nat.zero_lt_succ, gt_iff_lt, hs]
  simp [hs]

example :
    trim_conversation_history
      [mkMsg "user" "q1", mkMsg "assistant" "r1", mkMsg "user" "q2"] 1 1000000 =
      [mkMsg "user" "q1", mkMsg "assistant" "r1", mkMsg "user" "q2"] := by decide

example :
    trim_conversation_history
      [mkMsg "user" "q1", mkMsg "assistant" "r1", mkMsg "user" "q2"] 2 100000 =
      [mkMsg "assistant" "r1", mkMsg "user" "q2"] := by decide

example :
    trim_conversation_history
      [mkMsg "system" "s", mkMsg "developer" "d",
       mkMsg "user" "q1", mkMsg "assistant" "r1", mkMsg "user" "q2",
       mkMsg "assistant" "r2", mkMsg "user" "q3", mkMsg "assistant" "r3"] 4 100000 =
      [mkMsg "system" "s", mkMsg "developer" "d",
       mkMsg "user" "q2", mkMsg "assistant" "r2", mkMsg "user" "q3",
       mkMsg "assistant" "r3"] := by decide


/-! ### Claims about the decoder -/

/-- C1 counterexample: a stream that closes immediately after a non-empty
`data:` line (no trailing blank line) yields NO fragment, although the same
stream with a trailing blank line yields the event's content `"Hi"`.  The
accumulated data is dropped at end of input, not flushed as the claim
states. -/
theorem claim_C1_counterexample :
    decodeLines [chars "data: " ++ payloadHi] [] = [] ∧
    decodeLines [chars "data: " ++ payloadHi, []] [] = [Json.str (chars "Hi")] :=
  ⟨rfl, rfl⟩

/-- C1 (amended): if the line source is exhausted while data lines are still
accumulated for an open event and no trailing blank line was received, the
decoder DISCARDS the accumulated data and emits nothing further; in
particular a stream closing immediately after a non-empty `data:` line yields
nothing for that final partial event. -/
theorem claim_C1 :
    (∀ acc : List Str, decodeLines [] acc = []) ∧
    decodeLines [chars "data: " ++ payloadHi] [] = [] :=
  ⟨decode_eof, rfl⟩

/-- C2: when an event boundary produces the payload `[DONE]`, decoding
terminates: no fragment is emitted for that event, no error is raised, and
the output is independent of all input lines after the boundary (they are
never consumed). -/
theorem claim_C2 (rest rest2 : List Str) (acc : List Str) (hne : acc ≠ [])
    (hp : joinNL acc = chars "[DONE]") :
    decodeLines ([] :: rest) acc = [] ∧
    decodeLines ([] :: rest) acc = decodeLines ([] :: rest2) acc := by
  refine ⟨decode_boundary_done rest acc hne hp, ?_⟩
  rw [decode_boundary_done rest acc hne hp, decode_boundary_done rest2 acc hne hp]

/-- Witness for C2 at a concrete input: the accumulator holds `[DONE]` and
the lines after the boundary differ, yet the output is `[]` either way. -/
theorem claim_C2_witness :
    decodeLines [[], chars "data: x", []] [chars "[DONE]"] = [] ∧
    decodeLines [[], chars "data: x", []] [chars "[DONE]"] =
      decodeLines [([] : Str)] [chars "[DONE]"] :=
  claim_C2 [chars "data: x", []] [] [chars "[DONE]"] (by simp) (by rfl)

/-- C3: an event whose assembled payload is valid JSON whose `choices[0]` is
an object with `delta.content` a non-empty string `s` makes the decoder emit
exactly `Json.str s` as one fragment for that event, continuing afterwards
with an empty accumulator; and the end-to-end input of the claim yields
exactly the fragments `"Hi"` and `" there"` and stops at `[DONE]`. -/
theorem claim_C3 :
    (∀ (s : Str) (rest : List Str) (acc : List Str) (kvs ckvs dkvs : List (Str × Json))
      (restCh : List Json),
      acc ≠ [] →
      json_loads (joinNL acc) = some (Json.obj kvs) →
      objGet kvs (chars "choices") = some (Json.arr (Json.obj ckvs :: restCh)) →
      objGet ckvs (chars "delta") = some (Json.obj dkvs) →
      objGet dkvs (chars "content") = some (Json.str s) →
      s ≠ [] →
      decodeLines ([] :: rest) acc = Json.str s :: decodeLines rest []) ∧
    decodeLines [chars "data: " ++ payloadHi, [], chars "data: " ++ payloadThere, [],
      chars "data: [DONE]", []] [] =
      [Json.str (chars "Hi"), Json.str (chars " there")] := by
  constructor
  · intro s rest acc kvs ckvs dkvs restCh hne hl hc hd hcont hs
    apply decode_boundary_emit rest acc _ hne (ne_done_of_loads _ _ hl)
    unfold handlePayload
    rw [hl]
    exact extract_content_shape kvs ckvs dkvs restCh s hc hd hcont hs
  · rfl

/-- Witness for C3 at a concrete input: one accumulated payload carrying the
content `"Hi"` is emitted as exactly one fragment at the boundary. -/
theorem claim_C3_witness :
    decodeLines [([] : Str)] [payloadHi] = Json.str (chars "Hi") :: decodeLines [] [] :=
  claim_C3.1 (chars "Hi") [] [payloadHi]
    [(chars "choices", Json.arr [Json.obj [(chars "delta",
      Json.obj [(chars "content", Json.str (chars "Hi"))])]])]
    [(chars "delta", Json.obj [(chars "content", Json.str (chars "Hi"))])]
    [(chars "content", Json.str (chars "Hi"))]
    [] (by simp) (by rfl) (by rfl) (by rfl) (by rfl) (by decide)

/-- Content extraction when the parsed object has no `choices` key: nothing
is yielded and no exception is raised. -/
theorem extract_content_nokey (kvs : List (Str × Json))
    (h : objHasKey kvs (chars "choices") = false) :
    extract_content (Json.obj kvs) = Except.ok none := by
  simp [extract_content, pyIn, h]

/-- Content extraction when `choices` is the empty list: nothing is
yielded. -/
theorem extract_content_empty (kvs : List (Str × Json))
    (h : objGet kvs (chars "choices") = some (Json.arr [])) :
    extract_content (Json.obj kvs) = Except.ok none := by
  simp [extract_content, pyIn, objHasKey_of_objGet _ _ _ h, pyIndexKey, h, pyLen]

/-- Content extraction when `choices[0]` has no `delta` key: nothing is
yielded. -/
theorem extract_content_nodelta (kvs ckvs : List (Str × Json)) (restCh : List Json)
    (hc : objGet kvs (chars "choices") = some (Json.arr (Json.obj ckvs :: restCh)))
    (h : objHasKey ckvs (chars "delta") = false) :
    extract_content (Json.obj kvs) = Except.ok none := by
  simp [extract_content, pyIn, objHasKey_of_objGet _ _ _ hc, pyIndexKey, hc, pyLen,
    pyIndexZero, h]

/-- Content extraction when `delta` has no `content` key: nothing is
yielded. -/
theorem extract_content_nocontent (kvs ckvs dkvs : List (Str × Json)) (restCh : List Json)
    (hc : objGet kvs (chars "choices") = some (Json.arr (Json.obj ckvs :: restCh)))
    (hd : objGet ckvs (chars "delta") = some (Json.obj dkvs))
    (h : objHasKey dkvs (chars "content") = false) :
    extract_content (Json.obj kvs) = Except.ok none := by
  simp [extract_content, pyIn, objHasKey_of_objGet _ _ _ hc, pyIndexKey, hc, pyLen,
    pyIndexZero, objHasKey_of_objGet _ _ _ hd, hd, h]

/-- Content extraction when `delta.content` is present but falsy: nothing is
yielded. -/
theorem extract_content_falsy (kvs ckvs dkvs : List (Str × Json)) (restCh : List Json)
    (v : Json)
    (hc : objGet kvs (chars "choices") = some (Json.arr (Json.obj ckvs :: restCh)))
    (hd : objGet ckvs (chars "delta") = some (Json.obj dkvs))
    (hcont : objGet dkvs (chars "content") = some v) (h : pyTruthy v = false) :
    extract_content (Json.obj kvs) = Except.ok none := by
  simp [extract_content, pyIn, objHasKey_of_objGet _ _ _ hc, pyIndexKey, hc, pyLen,
    pyIndexZero, objHasKey_of_objGet _ _ _ hd, hd, objHasKey_of_objGet _ _ _ hcont,
    hcont, h]

/-- Content extraction on a bare JSON number: the membership test
`"choices" in data` raises a `TypeError`. -/
theorem extract_content_num (n : Int) :
    extract_content (Json.num n) = Except.error PyErr.typeError := rfl

/-- C4 counterexample: the payload `42` is valid JSON with no `choices`
field, yet the decoder does not skip it and continue — it emits a terminal
error fragment and never reaches the following well-formed `"Hi"` event. -/
theorem claim_C4_counterexample :
    decodeLines [chars "data: 42", [], chars "data: " ++ payloadHi, []] [] =
      [Json.str (chars "❌ Unexpected error: TypeError")] ∧
    chars "❌ Unexpected error: TypeError" ≠ chars "Hi" :=
  ⟨rfl, by decide⟩

/-- C4 (amended): a JSON parse failure, and every payload parsing to a JSON
OBJECT whose `choices` is missing or the empty list, or whose `choices[0]`
is an object with `delta` missing, `delta.content` missing, or
`delta.content` falsy, is skipped without error and decoding continues with
the remaining lines; but a payload that is valid JSON of non-container type
(here: a bare number) raises a `TypeError` past the inner handler, which
surfaces as one terminal error fragment and stops decoding. -/
theorem claim_C4 (rest : List Str) (acc : List Str) (hne : acc ≠ []) :
    (json_loads (joinNL acc) = none → joinNL acc ≠ chars "[DONE]" →
      decodeLines ([] :: rest) acc = decodeLines rest []) ∧
    (∀ kvs, json_loads (joinNL acc) = some (Json.obj kvs) →
      objHasKey kvs (chars "choices") = false →
      decodeLines ([] :: rest) acc = decodeLines rest []) ∧
    (∀ kvs, json_loads (joinNL acc) = some (Json.obj kvs) →
      objGet kvs (chars "choices") = some (Json.arr []) →
      decodeLines ([] :: rest) acc = decodeLines rest []) ∧
    (∀ kvs ckvs restCh, json_loads (joinNL acc) = some (Json.obj kvs) →
      objGet kvs (chars "choices") = some (Json.arr (Json.obj ckvs :: restCh)) →
      objHasKey ckvs (chars "delta") = false →
      decodeLines ([] :: rest) acc = decodeLines rest []) ∧
    (∀ kvs ckvs dkvs restCh, json_loads (joinNL acc) = some (Json.obj kvs) →
      objGet kvs (chars "choices") = some (Json.arr (Json.obj ckvs :: restCh)) →
      objGet ckvs (chars "delta") = some (Json.obj dkvs) →
      objHasKey dkvs (chars "content") = false →
      decodeLines ([] :: rest) acc = decodeLines rest []) ∧
    (∀ kvs ckvs dkvs restCh v, json_loads (joinNL acc) = some (Json.obj kvs) →
      objGet kvs (chars "choices") = some (Json.arr (Json.obj ckvs :: restCh)) →
      objGet ckvs (chars "delta") = some (Json.obj dkvs) →
      objGet dkvs (chars "content") = some v → pyTruthy v = false →
      decodeLines ([] :: rest) acc = decodeLines rest []) ∧
    (∀ n : Int, json_loads (joinNL acc) = some (Json.num n) →
      decodeLines ([] :: rest) acc =
        [Json.str (chars "❌ Unexpected error: TypeError")]) := by
  refine ⟨?_, ?_, ?_, ?_, ?_, ?_, ?_⟩
  · intro hl hd
    apply decode_boundary_skip rest acc hne hd
    unfold handlePayload
    rw [hl]
  · intro kvs hl h
    apply decode_boundary_skip rest acc hne (ne_done_of_loads _ _ hl)
    unfold handlePayload
    rw [hl]
    exact extract_content_nokey kvs h
  · intro kvs hl h
    apply decode_boundary_skip rest acc hne (ne_done_of_loads _ _ hl)
    unfold handlePayload
    rw [hl]
    exact extract_content_empty kvs h
  · intro kvs ckvs restCh hl hc h
    apply decode_boundary_skip rest acc hne (ne_done_of_loads _ _ hl)
    unfold handlePayload
    rw [hl]
    exact extract_content_nodelta kvs ckvs restCh hc h
  · intro kvs ckvs dkvs restCh hl hc hd h
    apply decode_boundary_skip rest acc hne (ne_done_of_loads _ _ hl)
    unfold handlePayload
    rw [hl]
    exact extract_content_nocontent kvs ckvs dkvs restCh hc hd h
  · intro kvs ckvs dkvs restCh v hl hc hd hcont h
    apply decode_boundary_skip rest acc hne (ne_done_of_loads _ _ hl)
    unfold handlePayload
    rw [hl]
    exact extract_content_falsy kvs ckvs dkvs restCh v hc hd hcont h
  · intro n hl
    have := decode_boundary_error rest acc PyErr.typeError hne (ne_done_of_loads _ _ hl)
      (by unfold handlePayload; rw [hl]; exact extract_content_num n)
    rw [this]
    rfl

/-- Witness for C4 at concrete inputs: an unparsable payload is skipped and
decoding continues. -/
theorem claim_C4_witness :
    decodeLines [([] : Str)] [chars "notjson"] = decodeLines [] [] :=
  (claim_C4 [] [chars "notjson"] (by simp)).1 (by rfl) (by decide)

/-- C5 counterexample: for the line `data:  X` (two spaces) the decoder
appends `X` to the accumulator, not the ` X` that stripping at most one
leading space would give; and a line `data:   [DONE]` (three spaces) still
terminates decoding because ALL leading whitespace is stripped, so the
following well-formed `"Hi"` event is never emitted. -/
theorem claim_C5_counterexample :
    dataLineValue (chars "data:  X") = chars "X" ∧
    chars "X" ≠ [' '] ++ chars "X" ∧
    decodeLines [chars "data:   [DONE]", [], chars "data: " ++ payloadHi, []] [] = [] :=
  ⟨rfl, by decide, rfl⟩

/-- C5 (amended): for every line starting with the prefix `data:`, the
decoder strips that prefix and ALL leading whitespace from the remainder
(Python `lstrip()`), appending the result to the current event's data-lines
accumulator; multiple accumulated data lines of one event are joined with a
newline before JSON parsing. -/
theorem claim_C5 :
    (∀ (line : Str) (rest : List Str) (acc : List Str),
      (chars "data:").isPrefixOf line = true →
      ([':'] : Str).isPrefixOf line = false →
      decodeLines (line :: rest) acc =
        decodeLines rest (acc ++ [pyLstrip (line.drop 5)])) ∧
    (∀ a b : Str, joinNL [a, b] = a ++ '\n' :: b) := by
  constructor
  · intro line rest acc h1 h2
    cases line with
    | nil => exact absurd h1 (by decide)
    | cons c cs =>
      simp only [decodeLines]
      rw [if_neg (by simp), if_neg (by simp [h2]), if_pos h1]
      rfl
  · intro a b
    simp [joinNL, List.intercalate, List.intersperse]

/-- C9: a non-2xx HTTP response (an `HTTPError` with status code, reason and
body) is surfaced by `stream_response` as exactly one fragment — never as an
uncaught fault, since the handler returns this value — and that fragment is a
string that starts with the error marker `❌` (the marker the caller uses to
tell errors from normal content) and contains both the decimal status code
and the response body text. -/
theorem claim_C9 (code : Nat) (reason body : Str) :
    ∃ msg : Str,
      stream_response (HttpResult.httpError code reason body) = [Json.str msg] ∧
      List.IsPrefix (chars "❌") msg ∧
      List.IsInfix (chars (Nat.repr code)) msg ∧
      List.IsInfix body msg := by
  refine ⟨chars "❌ Error: HTTP " ++ chars (Nat.repr code) ++ [' '] ++ reason ++
    ['\n'] ++ body, rfl, ?_, ?_, ?_⟩
  · refine ⟨chars " Error: HTTP " ++ chars (Nat.repr code) ++ [' '] ++ reason ++
      ['\n'] ++ body, ?_⟩
    have h : chars "❌" ++ chars " Error: HTTP " = chars "❌ Error: HTTP " := by decide
    simp only [← List.append_assoc, h]
  · exact ⟨chars "❌ Error: HTTP ", [' '] ++ reason ++ ['\n'] ++ body, by
      simp only [← List.append_assoc]⟩
  · exact ⟨chars "❌ Error: HTTP " ++ chars (Nat.repr code) ++ [' '] ++ reason ++
      ['\n'], [], by simp only [List.append_nil, ← List.append_assoc]⟩

/-! ### Structure lemmas for the trimmer -/

/-- If the token estimate is already within budget, the token loop removes
nothing. -/
theorem trimLoop_no_trim (sys conv : List Msg) (mt : Int)
    (h : (totalTokens (sys ++ conv) : Int) ≤ mt) : trimLoop sys conv mt = sys ++ conv := by
  rcases conv with _ | ⟨a, _ | ⟨b, _ | ⟨c, r⟩⟩⟩
  · rfl
  · rfl
  · rfl
  · simp only [trimLoop]
    rw [if_neg]
    exact not_lt.mpr h

/-- The token loop only ever removes an even-length prefix of the
conversation. -/
theorem trimLoop_shape_aux (sys : List Msg) (mt : Int) :
    ∀ (n : Nat) (conv : List Msg), conv.length ≤ n →
      ∃ j, trimLoop sys conv mt = sys ++ conv.drop (2 * j) := by
  intro n
  induction n with
  | zero =>
    intro conv h
    rcases conv with _ | ⟨a, r⟩
    · exact ⟨0, rfl⟩
    · simp at h
  | succ n ih =>
    intro conv h
    rcases conv with _ | ⟨a, _ | ⟨b, _ | ⟨c, r⟩⟩⟩
    · exact ⟨0, rfl⟩
    · exact ⟨0, rfl⟩
    · exact ⟨0, rfl⟩
    · simp only [trimLoop]
      split
      · obtain ⟨j, hj⟩ := ih (c :: r) (by simp at h ⊢; omega)
        refine ⟨j + 1, ?_⟩
        rw [hj, show 2 * (j + 1) = 2 + 2 * j from by ring, ← List.drop_drop]
        rfl
      · exact ⟨0, by simp⟩

/-- The token loop returns the system messages followed by an even-offset
suffix of the conversation. -/
theorem trimLoop_shape (sys : List Msg) (mt : Int) (conv : List Msg) :
    ∃ j, trimLoop sys conv mt = sys ++ conv.drop (2 * j) :=
  trimLoop_shape_aux sys mt conv.length conv (le_refl _)

/-- The keep count of lines 61-63 is always even (Python `%` and Lean
`Int.emod` agree on the positive modulus 2). -/
theorem keepCount_emod (mm : Int) : keepCount mm % 2 = 0 := by
  unfold keepCount
  split
  next h => omega
  next h => omega

/-- The slice `conversation_messages[-keep_count:]` drops a prefix; for an
even keep count and an even-length list, the dropped prefix has even
length. -/
theorem pySliceLastNeg_drop (l : List Msg) (k : Int) (hk : k % 2 = 0) :
    ∃ d, pySliceLastNeg l k = l.drop d ∧ (l.length % 2 = 0 → d % 2 = 0) := by
  unfold pySliceLastNeg
  split
  next h => exact ⟨(-k).toNat, rfl, fun _ => by omega⟩
  next h => exact ⟨l.length - k.toNat, rfl, fun hl => by omega⟩

/-- The function `trim_conversation_history` always returns the retained system/developer
messages in full and in order, followed by a suffix of the conversation; the
dropped prefix is even-length whenever the conversation length is even. -/
theorem trim_shape (msgs : List Msg) (mm mt : Int) :
    ∃ d, trim_conversation_history msgs mm mt =
      retainedPart msgs ++ (conversationPart msgs).drop d ∧
      ((conversationPart msgs).length % 2 = 0 → d % 2 = 0) := by
  rcases msgs with _ | ⟨m, ms⟩
  · exact ⟨0, by simp [trim_conversation_history, retainedPart, conversationPart], fun _ => rfl⟩
  · simp only [trim_conversation_history]
    split
    next hcond =>
      obtain ⟨d1, hs1, he1⟩ :=
        pySliceLastNeg_drop (conversationPart (m :: ms)) (keepCount mm) (keepCount_emod mm)
      rw [hs1]
      obtain ⟨j, hj⟩ :=
        trimLoop_shape (retainedPart (m :: ms)) mt ((conversationPart (m :: ms)).drop d1)
      refine ⟨d1 + 2 * j, ?_, ?_⟩
      · rw [hj, List.drop_drop]
      · intro hlen
        have := he1 hlen
        omega
    next hcond =>
      obtain ⟨j, hj⟩ := trimLoop_shape (retainedPart (m :: ms)) mt (conversationPart (m :: ms))
      exact ⟨2 * j, hj, fun _ => by omega⟩

/-- Applying `conversationPart` to a trimmer result recovers exactly the
conversation suffix. -/
theorem conversationPart_result (msgs : List Msg) (d : Nat) :
    conversationPart (retainedPart msgs ++ (conversationPart msgs).drop d) =
      (conversationPart msgs).drop d := by
  unfold conversationPart retainedPart
  rw [List.filter_append]
  have h1 : List.filter (fun m => !(isRetained m)) (List.filter isRetained msgs) = [] := by
    rw [List.filter_filter]
    apply List.filter_eq_nil_iff.mpr
    intro a _
    cases h : isRetained a <;> simp [h]
  have h2 : List.filter (fun m => !(isRetained m))
      ((List.filter (fun m => !(isRetained m)) msgs).drop d) =
      (List.filter (fun m => !(isRetained m)) msgs).drop d := by
    apply List.filter_eq_self.mpr
    intro a ha
    exact (List.mem_filter.mp (List.drop_subset d _ ha)).2
  rw [h1, h2]
  simp

/-! ### Claims about the trimmer -/

/-- A three-message alternating conversation used in the C6 and C7
counterexamples. -/
def exC6 : List Msg := [mkMsg "user" "q1", mkMsg "assistant" "r1", mkMsg "user" "q2"]

/-- C6 counterexample: with `maxMessages = 1` the rounded keep count is `0`,
and because Python's `-0` start index is `0` the slice `[-0:]` keeps the
WHOLE conversation: all 3 entries survive although the claim requires exactly
the last 0 to be kept. -/
theorem claim_C6_counterexample :
    ((conversationPart exC6).length : Int) > 1 ∧
    keepCount 1 = 0 ∧
    trim_conversation_history exC6 1 1000000 = exC6 ∧
    exC6.length = 3 :=
  ⟨by decide, by decide, by decide, rfl⟩

/-- C6 (amended): whenever the conversation part has more than `maxMessages`
entries, `maxMessages ≥ 2`, and the token budget does not force further
trimming, the trimmer keeps exactly the last `k` conversation entries where
`k = maxMessages` rounded down to an even number, dropping all earlier
conversation entries and keeping the retained system/developer messages
untouched.  (For `maxMessages ≤ 1` the keep count is `0` and the Python
slice `[-0:]` keeps everything instead.) -/
theorem claim_C6 (msgs : List Msg) (mm mt : Int) (h2 : 2 ≤ mm)
    (hlen : ((conversationPart msgs).length : Int) > mm)
    (htok : (totalTokens (retainedPart msgs ++ (conversationPart msgs).drop
      ((conversationPart msgs).length - (keepCount mm).toNat)) : Int) ≤ mt) :
    trim_conversation_history msgs mm mt =
      retainedPart msgs ++ (conversationPart msgs).drop
        ((conversationPart msgs).length - (keepCount mm).toNat) ∧
    ((conversationPart msgs).drop
      ((conversationPart msgs).length - (keepCount mm).toNat)).length =
      (keepCount mm).toNat := by
  have hkm : keepCount mm ≤ mm := by unfold keepCount; split <;> omega
  have hkpos : 0 < keepCount mm := by unfold keepCount; split <;> omega
  constructor
  · rcases msgs with _ | ⟨m, ms⟩
    · exfalso
      simp [conversationPart] at hlen
      omega
    · simp only [trim_conversation_history]
      rw [if_pos hlen]
      unfold pySliceLastNeg
      rw [if_neg (by omega)]
      exact trimLoop_no_trim _ _ _ htok
  · rw [List.length_drop]
    omega

/-- The spec's 8-message example: two retained messages and six conversation
messages. -/
def exC6w : List Msg :=
  [mkMsg "system" "s", mkMsg "developer" "d", mkMsg "user" "q1", mkMsg "assistant" "r1",
   mkMsg "user" "q2", mkMsg "assistant" "r2", mkMsg "user" "q3", mkMsg "assistant" "r3"]

/-- Witness for C6 at the spec's example (`maxMessages = 4`, large budget):
exactly the last 4 conversation entries remain after the retained
messages. -/
theorem claim_C6_witness :
    trim_conversation_history exC6w 4 100000 =
      retainedPart exC6w ++ (conversationPart exC6w).drop
        ((conversationPart exC6w).length - (keepCount 4).toNat) ∧
    ((conversationPart exC6w).drop
      ((conversationPart exC6w).length - (keepCount 4).toNat)).length =
      (keepCount 4).toNat :=
  claim_C6 exC6w 4 100000 (by decide) (by decide) (by decide)

/-- The conversation strictly alternates user/assistant roles starting with a
user message. -/
def AlternatingUA (l : List Msg) : Prop :=
  ∀ i, (h : i < l.length) →
    (l.get ⟨i, h⟩).role = (if i % 2 = 0 then chars "user" else chars "assistant")

instance (l : List Msg) : Decidable (AlternatingUA l) := by
  unfold AlternatingUA
  infer_instance

/-- C7 counterexample: the conversation `[user, assistant, user]` strictly
alternates starting with user, yet with `maxMessages = 2` the trimmer keeps
the last 2 entries and the returned conversation STARTS with the assistant
message. -/
theorem claim_C7_counterexample :
    AlternatingUA (conversationPart exC6) ∧
    (conversationPart (trim_conversation_history exC6 2 100000)).head? =
      some (mkMsg "assistant" "r1") ∧
    (mkMsg "assistant" "r1").role = chars "assistant" :=
  ⟨by decide, by decide, rfl⟩

/-- C7 (amended): when the input conversation strictly alternates
user/assistant starting with a user message AND has even length (whole
exchanges only), the conversation part of the trimmer's output never starts
with an assistant message, for all values of `maxMessages` and
`maxTokens`. -/
theorem claim_C7 (msgs : List Msg) (mm mt : Int)
    (halt : AlternatingUA (conversationPart msgs))
    (heven : (conversationPart msgs).length % 2 = 0) :
    ∀ m, (conversationPart (trim_conversation_history msgs mm mt)).head? = some m →
      m.role ≠ chars "assistant" := by
  intro m hm
  obtain ⟨d, hshape, hdeven⟩ := trim_shape msgs mm mt
  rw [hshape, conversationPart_result] at hm
  by_cases hd : d < (conversationPart msgs).length
  · rw [List.drop_eq_getElem_cons hd] at hm
    have hm2 : (conversationPart msgs)[d] = m := by
      simp only [List.head?_cons, Option.some.injEq] at hm
      exact hm
    have hrole := halt d hd
    rw [List.get_eq_getElem] at hrole
    rw [if_pos (by have := hdeven heven; omega)] at hrole
    rw [← hm2, hrole]
    decide
  · rw [List.drop_eq_nil_of_le (by omega)] at hm
    simp at hm

/-- An even-length alternating conversation used in the C7 witness. -/
def exC7 : List Msg :=
  [mkMsg "user" "q1", mkMsg "assistant" "r1", mkMsg "user" "q2", mkMsg "assistant" "r2"]

/-- Witness for C7 at a concrete input: trimming the even-length alternating
conversation to its last two entries leaves a user message in front. -/
theorem claim_C7_witness : (mkMsg "user" "q2").role ≠ chars "assistant" :=
  claim_C7 exC7 2 100000 (by decide) (by decide) (mkMsg "user" "q2") (by decide)

/-- C8: for every input, the trimmer's output is the retained
system/developer messages — all of them, in their original order — followed
by a suffix of the user/assistant conversation (the possibly-trimmed
conversation in its original relative order). -/
theorem claim_C8 (msgs : List Msg) (mm mt : Int) :
    ∃ d, trim_conversation_history msgs mm mt =
      retainedPart msgs ++ (conversationPart msgs).drop d := by
  obtain ⟨d, h, _⟩ := trim_shape msgs mm mt
  exact ⟨d, h⟩

/-- C10: the trimmer is a total function whose output is never longer than
its input and contains only messages of the input (no message is created or
mutated); the empty input is returned unchanged. -/
theorem claim_C10 (msgs : List Msg) (mm mt : Int) :
    (trim_conversation_history msgs mm mt).length ≤ msgs.length ∧
    (∀ m, m ∈ trim_conversation_history msgs mm mt → m ∈ msgs) ∧
    trim_conversation_history [] mm mt = [] := by
  obtain ⟨d, h, _⟩ := trim_shape msgs mm mt
  refine ⟨?_, ?_, rfl⟩
  · rw [h, List.length_append]
    have hd : ((conversationPart msgs).drop d).length ≤ (conversationPart msgs).length := by
      rw [List.length_drop]
      omega
    have hsum : (retainedPart msgs).length + (conversationPart msgs).length = msgs.length :=
      (List.length_eq_length_filter_add isRetained).symm
    omega
  · intro m hm
    rw [h] at hm
    rcases List.mem_append.mp hm with h1 | h1
    · exact List.mem_of_mem_filter h1
    · exact List.mem_of_mem_filter (List.drop_subset d _ h1)

/-- Witness for C5 at a concrete input: the line `data: hi` appends the
whitespace-stripped remainder to the accumulator. -/
theorem claim_C5_witness :
    decodeLines [chars "data: hi"] [] =
      decodeLines [] ([] ++ [pyLstrip ((chars "data: hi").drop 5)]) :=
  claim_C5.1 (chars "data: hi") [] [] (by decide) (by decide)
